import Mathlib

/-!
Shallow embedding of the link-relation traversal engine of the `stac.py`
repository (files under `examples/`): JSON documents, typed links
(`link.py`, `links.py`, `relation.py`), the resource classifier
(`resource_factory.py`, registrations from `stac.py`), the traversable
entities (`traversable.py`, `_base_container.py`, `item.py`, `catalog.py`,
`collection.py`) and the recursive walker (`catalog.py`).

Python conventions mapped to Lean:
* JSON documents are `JValue`; a JSON object is an association list
  (Python `dict`s coming from `json` parsing have unique keys, and we
  only read them through first-match lookup, exactly like `dict` access).
* Python exceptions are the error side of `Except PyError`.  `KeyError`
  (a `LookupError` subclass) is `PyError.keyError`; the two distinct
  `RuntimeError` messages of the link filter keep their exact texts.
* The HTTP fetcher (`_utils.py`, `Utils.get`) is an explicit map from URL
  strings to parsed JSON; `none` stands for any transport failure
  (non-2xx status or a non-JSON content type), which the engine
  propagates unchanged.
* Generators (`children`, `items`, `walk`) are modelled eagerly as lists;
  over a deterministic, fully-resolving store the yielded values agree
  with the lazy Python sequence.
-/

/-- A parsed JSON value, as returned by `response.json()`. -/
inductive JValue where
  | null : JValue
  | bool (b : Bool) : JValue
  | num (n : Int) : JValue
  | str (s : String) : JValue
  | arr (elems : List JValue) : JValue
  | obj (fields : List (String × JValue)) : JValue

mutual

/-- Decidable equality of JSON values (spelled out because the automatic
derivation does not handle the nested occurrences of `List`). -/
def JValue.decEq : (a b : JValue) → Decidable (a = b)
  | .null, .null => isTrue rfl
  | .bool x, .bool y =>
    match inferInstanceAs (Decidable (x = y)) with
    | isTrue h => isTrue (by rw [h])
    | isFalse h => isFalse (fun hh => h (by cases hh; rfl))
  | .num x, .num y =>
    match inferInstanceAs (Decidable (x = y)) with
    | isTrue h => isTrue (by rw [h])
    | isFalse h => isFalse (fun hh => h (by cases hh; rfl))
  | .str x, .str y =>
    match inferInstanceAs (Decidable (x = y)) with
    | isTrue h => isTrue (by rw [h])
    | isFalse h => isFalse (fun hh => h (by cases hh; rfl))
  | .arr xs, .arr ys =>
    match JValue.decEqL xs ys with
    | isTrue h => isTrue (by rw [h])
    | isFalse h => isFalse (fun hh => h (by cases hh; rfl))
  | .obj fs, .obj gs =>
    match JValue.decEqF fs gs with
    | isTrue h => isTrue (by rw [h])
    | isFalse h => isFalse (fun hh => h (by cases hh; rfl))
  | .null, .bool _ => isFalse (fun h => by cases h)
  | .null, .num _ => isFalse (fun h => by cases h)
  | .null, .str _ => isFalse (fun h => by cases h)
  | .null, .arr _ => isFalse (fun h => by cases h)
  | .null, .obj _ => isFalse (fun h => by cases h)
  | .bool _, .null => isFalse (fun h => by cases h)
  | .bool _, .num _ => isFalse (fun h => by cases h)
  | .bool _, .str _ => isFalse (fun h => by cases h)
  | .bool _, .arr _ => isFalse (fun h => by cases h)
  | .bool _, .obj _ => isFalse (fun h => by cases h)
  | .num _, .null => isFalse (fun h => by cases h)
  | .num _, .bool _ => isFalse (fun h => by cases h)
  | .num _, .str _ => isFalse (fun h => by cases h)
  | .num _, .arr _ => isFalse (fun h => by cases h)
  | .num _, .obj _ => isFalse (fun h => by cases h)
  | .str _, .null => isFalse (fun h => by cases h)
  | .str _, .bool _ => isFalse (fun h => by cases h)
  | .str _, .num _ => isFalse (fun h => by cases h)
  | .str _, .arr _ => isFalse (fun h => by cases h)
  | .str _, .obj _ => isFalse (fun h => by cases h)
  | .arr _, .null => isFalse (fun h => by cases h)
  | .arr _, .bool _ => isFalse (fun h => by cases h)
  | .arr _, .num _ => isFalse (fun h => by cases h)
  | .arr _, .str _ => isFalse (fun h => by cases h)
  | .arr _, .obj _ => isFalse (fun h => by cases h)
  | .obj _, .null => isFalse (fun h => by cases h)
  | .obj _, .bool _ => isFalse (fun h => by cases h)
  | .obj _, .num _ => isFalse (fun h => by cases h)
  | .obj _, .str _ => isFalse (fun h => by cases h)
  | .obj _, .arr _ => isFalse (fun h => by cases h)

/-- Decidable equality of JSON arrays. -/
def JValue.decEqL : (a b : List JValue) → Decidable (a = b)
  | [], [] => isTrue rfl
  | [], _ :: _ => isFalse (fun h => by cases h)
  | _ :: _, [] => isFalse (fun h => by cases h)
  | x :: xs, y :: ys =>
    match JValue.decEq x y with
    | isFalse h1 => isFalse (fun hh => h1 (by cases hh; rfl))
    | isTrue h1 =>
      match JValue.decEqL xs ys with
      | isTrue h2 => isTrue (by rw [h1, h2])
      | isFalse h2 => isFalse (fun hh => h2 (by cases hh; rfl))

/-- Decidable equality of JSON object bodies. -/
def JValue.decEqF : (a b : List (String × JValue)) → Decidable (a = b)
  | [], [] => isTrue rfl
  | [], _ :: _ => isFalse (fun h => by cases h)
  | _ :: _, [] => isFalse (fun h => by cases h)
  | (k, v) :: xs, (k2, v2) :: ys =>
    match inferInstanceAs (Decidable (k = k2)) with
    | isFalse h0 => isFalse (fun hh => h0 (by cases hh; rfl))
    | isTrue h0 =>
      match JValue.decEq v v2 with
      | isFalse h1 => isFalse (fun hh => h1 (by cases hh; rfl))
      | isTrue h1 =>
        match JValue.decEqF xs ys with
        | isTrue h2 => isTrue (by rw [h0, h1, h2])
        | isFalse h2 => isFalse (fun hh => h2 (by cases hh; rfl))

end

instance : DecidableEq JValue := JValue.decEq

instance {ε α : Type} [DecidableEq ε] [DecidableEq α] : DecidableEq (Except ε α) :=
  fun a b =>
    match a, b with
    | Except.ok x, Except.ok y =>
      match inferInstanceAs (Decidable (x = y)) with
      | isTrue h => isTrue (by rw [h])
      | isFalse h => isFalse (fun hh => h (by cases hh; rfl))
    | Except.error x, Except.error y =>
      match inferInstanceAs (Decidable (x = y)) with
      | isTrue h => isTrue (by rw [h])
      | isFalse h => isFalse (fun hh => h (by cases hh; rfl))
    | Except.ok _, Except.error _ => isFalse (fun h => by cases h)
    | Except.error _, Except.ok _ => isFalse (fun h => by cases h)

/-- A JSON object body: the association list behind a Python `dict`. -/
abbrev Doc := List (String × JValue)

/-- Python exceptions raised by the traversal engine.
`keyError` is `KeyError`, a subclass of `LookupError`.
`transportError` collapses the fetcher failures (`requests` HTTP errors
and the content-type `ValueError` in `Utils.get`).
`nonTermination` marks a recursion that Python would never finish
(the fuel of the walker ran out). -/
inductive PyError where
  | keyError (key : String) : PyError
  | typeError (msg : String) : PyError
  | valueError (msg : String) : PyError
  | runtimeError (msg : String) : PyError
  | attributeError (attr : String) : PyError
  | transportError (url : String) : PyError
  | nonTermination : PyError
deriving DecidableEq

/-- `relation.py`: the `RelationType` enumeration. -/
inductive RelationType where
  | ALTERNATE | CANONICAL | CHILD | COLLECTION | CONFORMANCE | DATA
  | DERIVED_FROM | DOCS | ITEM | LICENSE | NEXT | PARENT | PREV
  | PREVIEW | ROOT | SEARCH | SELF | VIA
deriving DecidableEq

namespace RelationType

/-- The string value of each member (`RelationType.CHILD.value == 'child'`). -/
def value : RelationType → String
  | .ALTERNATE => "alternate"
  | .CANONICAL => "canonical"
  | .CHILD => "child"
  | .COLLECTION => "collection"
  | .CONFORMANCE => "conformance"
  | .DATA => "data"
  | .DERIVED_FROM => "derived_from"
  | .DOCS => "docs"
  | .ITEM => "item"
  | .LICENSE => "license"
  | .NEXT => "next"
  | .PARENT => "parent"
  | .PREV => "prev"
  | .PREVIEW => "preview"
  | .ROOT => "root"
  | .SEARCH => "search"
  | .SELF => "self"
  | .VIA => "via"

/-- Python `Enum.__getitem__` (`RelationType[s]`) looks a member up by its
*name*, not by its value; an unknown name raises `KeyError(s)`. -/
def fromName : String → Option RelationType
  | "ALTERNATE" => some .ALTERNATE
  | "CANONICAL" => some .CANONICAL
  | "CHILD" => some .CHILD
  | "COLLECTION" => some .COLLECTION
  | "CONFORMANCE" => some .CONFORMANCE
  | "DATA" => some .DATA
  | "DERIVED_FROM" => some .DERIVED_FROM
  | "DOCS" => some .DOCS
  | "ITEM" => some .ITEM
  | "LICENSE" => some .LICENSE
  | "NEXT" => some .NEXT
  | "PARENT" => some .PARENT
  | "PREV" => some .PREV
  | "PREVIEW" => some .PREVIEW
  | "ROOT" => some .ROOT
  | "SEARCH" => some .SEARCH
  | "SELF" => some .SELF
  | "VIA" => some .VIA
  | _ => none

end RelationType

/-- `f'{rel_type}'` in the filter error messages: `str(None)` is `"None"`,
and `RelationType.__str__` returns the member's value. -/
def relOptStr : Option RelationType → String
  | none => "None"
  | some r => r.value

/-- `link.py`: a `Link` wraps the raw mapping of one hyperlink. -/
structure Link where
  data : Doc
deriving DecidableEq

/-- A classified resource: the result of `ResourceFactory.make`.
`stac.py` registers exactly the constructors `Catalog`, `Collection` and
`Item`; an unclassifiable document is handed back unmodified (`raw`). -/
inductive Resource where
  | catalog (data : Doc) : Resource
  | collection (data : Doc) : Resource
  | item (data : Doc) : Resource
  | raw (data : JValue) : Resource
deriving DecidableEq

/-- The classifier's constructor registry (`ResourceFactory._factories`). -/
abbrev Registry := List (String × (Doc → Resource))

/-- The HTTP fetcher: URL to parsed JSON document, `none` on failure. -/
abbrev Fetch := String → Option JValue

/-- The registry as populated by the `ResourceFactory.register` calls in
`stac.py` (only `Catalog`, `Collection` and `Item` are registered). -/
def defaultRegistry : Registry :=
  [("Catalog", Resource.catalog),
   ("Collection", Resource.collection),
   ("Item", Resource.item)]

/-- `'k' in data` / presence of a key in a Python dict. -/
def hasKey (d : Doc) (k : String) : Bool :=
  (List.lookup k d).isSome

/-- `resource_factory.py`, `ResourceFactory.make`: the registered
constructor for the document's explicit `type` tag, if any.  A `type`
value that is not a registered string falls through to the heuristic,
exactly like `('type' in data) and cls.exists(data['type'])`. -/
def registeredFor (reg : Registry) (d : Doc) : Option (Doc → Resource) :=
  match List.lookup "type" d with
  | some (JValue.str t) => List.lookup t reg
  | _ => none

/-- `resource_factory.py`, `ResourceFactory.make`.  Non-mapping payloads
always fail in Python (`TypeError` or `AttributeError` depending on the
shape); they are collapsed into a single `typeError` here, and no claim
depends on them. -/
def ResourceFactory.make (reg : Registry) (data : JValue) : Except PyError Resource :=
  match data with
  | JValue.obj d =>
    match registeredFor reg d with
    | some f => Except.ok (f d)
    | none =>
      if hasKey d "extent" || hasKey d "providers" || hasKey d "properties" then
        match List.lookup "Collection" reg with
        | some f => Except.ok (f d)
        | none => Except.error (PyError.keyError "Collection")
      else if hasKey d "stac_version" && hasKey d "description" && hasKey d "links" then
        match List.lookup "Catalog" reg with
        | some f => Except.ok (f d)
        | none => Except.error (PyError.keyError "Catalog")
      else Except.ok (Resource.raw (JValue.obj d))
  | _ => Except.error (PyError.typeError "document is not a mapping")

namespace Link

/-- `link.py`, `Link.rel`: `RelationType[self['rel']]`.  The subscript is
an enum *name* lookup; a string that is not a member name (including every
lowercase relation value a STAC document actually stores) raises
`KeyError`, which is a `LookupError`. -/
def rel (l : Link) : Except PyError RelationType :=
  match List.lookup "rel" l.data with
  | none => Except.error (PyError.keyError "rel")
  | some (JValue.str s) =>
    match RelationType.fromName s with
    | some r => Except.ok r
    | none => Except.error (PyError.keyError s)
  | some _ => Except.error (PyError.keyError "rel-value")

/-- `link.py`, `Link.resource`: fetch `self['href']` and classify. -/
def resource (fetch : Fetch) (reg : Registry) (l : Link) : Except PyError Resource :=
  match List.lookup "href" l.data with
  | none => Except.error (PyError.keyError "href")
  | some (JValue.str url) =>
    match fetch url with
    | none => Except.error (PyError.transportError url)
    | some data => ResourceFactory.make reg data
  | some _ => Except.error (PyError.typeError "url must be a string")

end Link

/-- `links.py`, the `Links` constructor, applied to a Python list (the
sequence check always passes there): each element must be a mapping or a
`Link`; raw mappings are coerced to `Link`.  Elements coming from a
document's `links` array are always raw JSON values. -/
def mkLinks : List JValue → Except PyError (List Link)
  | [] => Except.ok []
  | JValue.obj fs :: rest =>
    match mkLinks rest with
    | Except.ok ls => Except.ok (Link.mk fs :: ls)
    | Except.error e => Except.error e
  | _ :: _ =>
    Except.error (PyError.valueError "Sequence elements in data argument must be a dict or Link.")

/-- The filtering comprehension
`[link for link in selected_links if link['rel'] == rel_type.value]`:
each element is subscripted with `'rel'` (`KeyError` if the key is
missing, `TypeError` if the element is not a mapping) and its raw value
is compared with the relation's string value. -/
def selectRel (r : RelationType) : List JValue → Except PyError (List JValue)
  | [] => Except.ok []
  | v :: vs =>
    match v with
    | JValue.obj fs =>
      match List.lookup "rel" fs with
      | none => Except.error (PyError.keyError "rel")
      | some rv =>
        match selectRel r vs with
        | Except.error e => Except.error e
        | Except.ok rest =>
          if rv = JValue.str r.value then Except.ok (v :: rest) else Except.ok rest
    | _ => Except.error (PyError.typeError "link is not a mapping")

/-- `if rel_type:` — `None` is falsy, an enum member is truthy. -/
def selectLinks (rel : Option RelationType) (raw : List JValue) : Except PyError (List JValue) :=
  match rel with
  | none => Except.ok raw
  | some r => selectRel r raw

/-- The message of the `RuntimeError` raised by a mandatory filter. -/
def noLinkMsg (rel : Option RelationType) : String :=
  "No link found with relationship: " ++ relOptStr rel ++ "."

/-- The message of the `RuntimeError` raised by a single filter. -/
def manyLinkMsg (rel : Option RelationType) : String :=
  "Found more than one link with relationship: " ++ relOptStr rel ++ "."

/-- The shared body of `Traversable.links`, `BaseContainer._links` and
`Item._links` after the raw list has been obtained: filter, then the
`mandatory` check, then the `single` check, then `Links(...)`. -/
def linksBody (raw : List JValue) (rel : Option RelationType) (single mandatory : Bool) :
    Except PyError (List Link) :=
  match selectLinks rel raw with
  | Except.error e => Except.error e
  | Except.ok selected =>
    if mandatory = true ∧ selected = [] then
      Except.error (PyError.runtimeError (noLinkMsg rel))
    else if single = true ∧ 1 < selected.length then
      Except.error (PyError.runtimeError (manyLinkMsg rel))
    else mkLinks selected

/-- `traversable.py` (and the line-for-line identical
`_base_container.py`): `selected_links = self.get('links', [])` — a
missing `links` key silently yields the empty list.  A `links` value that
is not a JSON array would make the Python comprehension iterate a
non-list (failing with a type error on every shape a fetched document can
take); it is modelled as a single `typeError`. -/
def getLinksDefault (d : Doc) : Except PyError (List JValue) :=
  match List.lookup "links" d with
  | none => Except.ok []
  | some (JValue.arr xs) => Except.ok xs
  | some _ => Except.error (PyError.typeError "links value is not a JSON array")

/-- `item.py`, `Item._links`: `selected_links = self['links']` — a missing
`links` key raises `KeyError('links')` before any filtering. -/
def itemGetLinks (d : Doc) : Except PyError (List JValue) :=
  match List.lookup "links" d with
  | none => Except.error (PyError.keyError "links")
  | some (JValue.arr xs) => Except.ok xs
  | some _ => Except.error (PyError.typeError "links value is not a JSON array")

namespace Traversable

/-- `traversable.py`, `Traversable.links` (also `BaseContainer._links`,
whose body is identical). -/
def links (d : Doc) (rel : Option RelationType) (single mandatory : Bool) :
    Except PyError (List Link) :=
  match getLinksDefault d with
  | Except.error e => Except.error e
  | Except.ok raw => linksBody raw rel single mandatory

/-- `traversable.py`, `Traversable.url`:
`link = self.links(RelationType.SELF, single=True)`,
`return link[0]['href'] if link else None`. -/
def url (d : Doc) : Except PyError (Option JValue) :=
  match links d (some RelationType.SELF) true false with
  | Except.error e => Except.error e
  | Except.ok [] => Except.ok none
  | Except.ok (l :: _) =>
    match List.lookup "href" l.data with
    | some v => Except.ok (some v)
    | none => Except.error (PyError.keyError "href")

/-- `traversable.py`, `Traversable.parent`: filter by `PARENT`,
`single=True`, resolve the link if one matched. -/
def parent (fetch : Fetch) (reg : Registry) (d : Doc) : Except PyError (Option Resource) :=
  match links d (some RelationType.PARENT) true false with
  | Except.error e => Except.error e
  | Except.ok [] => Except.ok none
  | Except.ok (l :: _) =>
    match Link.resource fetch reg l with
    | Except.error e => Except.error e
    | Except.ok r => Except.ok (some r)

/-- `traversable.py`, `Traversable.root`: the source filters by
`RelationType.CHILD` (not `ROOT`), with `single=True`. -/
def root (fetch : Fetch) (reg : Registry) (d : Doc) : Except PyError (Option Resource) :=
  match links d (some RelationType.CHILD) true false with
  | Except.error e => Except.error e
  | Except.ok [] => Except.ok none
  | Except.ok (l :: _) =>
    match Link.resource fetch reg l with
    | Except.error e => Except.error e
    | Except.ok r => Except.ok (some r)

end Traversable

namespace BaseContainer

/-- `_base_container.py`, `BaseContainer._links`, is line-for-line the
body of `Traversable.links`; the navigation properties below come from
`_base_container.py` lines 87-144. -/
def url (d : Doc) : Except PyError (Option JValue) :=
  Traversable.url d

/-- `_base_container.py`, `BaseContainer.parent`. -/
def parent (fetch : Fetch) (reg : Registry) (d : Doc) : Except PyError (Option Resource) :=
  Traversable.parent fetch reg d

/-- `_base_container.py`, `BaseContainer.root`: filters by
`RelationType.CHILD`, exactly like `Traversable.root`. -/
def root (fetch : Fetch) (reg : Registry) (d : Doc) : Except PyError (Option Resource) :=
  Traversable.root fetch reg d

end BaseContainer

/-- Evaluate an effectful function over a list, left to right, stopping at
the first exception (the semantics of a Python `for` loop over a list). -/
def mapE {α β : Type} (f : α → Except PyError β) : List α → Except PyError (List β)
  | [] => Except.ok []
  | x :: xs =>
    match f x with
    | Except.error e => Except.error e
    | Except.ok y =>
      match mapE f xs with
      | Except.error e => Except.error e
      | Except.ok ys => Except.ok (y :: ys)

namespace Item

/-- `item.py`, `Item._links`: identical to `Traversable.links` except that
the raw list is obtained by `self['links']` (strict lookup). -/
def links (d : Doc) (rel : Option RelationType) (single mandatory : Bool) :
    Except PyError (List Link) :=
  match itemGetLinks d with
  | Except.error e => Except.error e
  | Except.ok raw => linksBody raw rel single mandatory

/-- `item.py`, `Item.url`. -/
def url (d : Doc) : Except PyError (Option JValue) :=
  match links d (some RelationType.SELF) true false with
  | Except.error e => Except.error e
  | Except.ok [] => Except.ok none
  | Except.ok (l :: _) =>
    match List.lookup "href" l.data with
    | some v => Except.ok (some v)
    | none => Except.error (PyError.keyError "href")

/-- `item.py`, `Item.parent`. -/
def parent (fetch : Fetch) (reg : Registry) (d : Doc) : Except PyError (Option Resource) :=
  match links d (some RelationType.PARENT) true false with
  | Except.error e => Except.error e
  | Except.ok [] => Except.ok none
  | Except.ok (l :: _) =>
    match Link.resource fetch reg l with
    | Except.error e => Except.error e
    | Except.ok r => Except.ok (some r)

/-- `item.py`, `Item.root`: like the other two `root` properties, the
source filters by `RelationType.CHILD`. -/
def root (fetch : Fetch) (reg : Registry) (d : Doc) : Except PyError (Option Resource) :=
  match links d (some RelationType.CHILD) true false with
  | Except.error e => Except.error e
  | Except.ok [] => Except.ok none
  | Except.ok (l :: _) =>
    match Link.resource fetch reg l with
    | Except.error e => Except.error e
    | Except.ok r => Except.ok (some r)

/-- `item.py`, `Item.collection`: filter by `COLLECTION`, `single=True`,
`mandatory='collection' in self`. -/
def collection (fetch : Fetch) (reg : Registry) (d : Doc) : Except PyError (Option Resource) :=
  match links d (some RelationType.COLLECTION) true (hasKey d "collection") with
  | Except.error e => Except.error e
  | Except.ok [] => Except.ok none
  | Except.ok (l :: _) =>
    match Link.resource fetch reg l with
    | Except.error e => Except.error e
    | Except.ok r => Except.ok (some r)

end Item

namespace Catalog

/-- `catalog.py`, `Catalog.children`: filter by `CHILD` (no cardinality
constraint) and resolve every matching link. -/
def children (fetch : Fetch) (reg : Registry) (d : Doc) : Except PyError (List Resource) :=
  match Traversable.links d (some RelationType.CHILD) false false with
  | Except.error e => Except.error e
  | Except.ok ls => mapE (Link.resource fetch reg) ls

/-- `catalog.py`, `Catalog.items`: same shape with relation `ITEM`. -/
def items (fetch : Fetch) (reg : Registry) (d : Doc) : Except PyError (List Resource) :=
  match Traversable.links d (some RelationType.ITEM) false false with
  | Except.error e => Except.error e
  | Except.ok ls => mapE (Link.resource fetch reg) ls

end Catalog

/-- The document wrapped by a resource that supports `walk` — only
`Catalog` and `Collection` (which inherits it) do. -/
def containerDoc : Resource → Option Doc
  | Resource.catalog d => some d
  | Resource.collection d => some d
  | Resource.item _ => none
  | Resource.raw _ => none

/-- `child.walk()` inside the walker: a resolved child that is not a
`Catalog`/`Collection` has no `walk` attribute. -/
def asWalkable (r : Resource) : Except PyError Doc :=
  match containerDoc r with
  | some d => Except.ok d
  | none => Except.error (PyError.attributeError "walk")

/-- `child.id` inside `filter_by_id`: `Catalog`, `Collection` and `Item`
expose `id` as `self['id']`; a raw dictionary has no `id` attribute. -/
def resourceId : Resource → Except PyError JValue
  | Resource.catalog d =>
    match List.lookup "id" d with
    | some v => Except.ok v
    | none => Except.error (PyError.keyError "id")
  | Resource.collection d =>
    match List.lookup "id" d with
    | some v => Except.ok v
    | none => Except.error (PyError.keyError "id")
  | Resource.item d =>
    match List.lookup "id" d with
    | some v => Except.ok v
    | none => Except.error (PyError.keyError "id")
  | Resource.raw _ => Except.error (PyError.attributeError "id")

namespace Catalog

/-- `catalog.py`, `Catalog.walk`, restricted to the sequence of entities
it yields (the first components of the triples): yield the current
document, then recurse into each resolved child in link order.  The
`fuel` argument bounds the recursion depth; the source has no cycle
detection, so a cyclic link graph never terminates — modelled by
`nonTermination` when the fuel runs out. -/
def walk (fetch : Fetch) (reg : Registry) : Nat → Doc → Except PyError (List Doc)
  | 0, _ => Except.error PyError.nonTermination
  | fuel + 1, d =>
    match children fetch reg d with
    | Except.error e => Except.error e
    | Except.ok rs =>
      match mapE asWalkable rs with
      | Except.error e => Except.error e
      | Except.ok ds =>
        match mapE (fun d2 => walk fetch reg fuel d2) ds with
        | Except.error e => Except.error e
        | Except.ok tails => Except.ok (d :: tails.flatten)

/-- The inner loop of `filter_by_id`: scan resolved children in order and
return the first whose `id` equals the target (Python compares the raw
JSON value with the target string). -/
def findMatch (tid : String) : List Resource → Except PyError (Option Resource)
  | [] => Except.ok none
  | c :: cs =>
    match resourceId c with
    | Except.error e => Except.error e
    | Except.ok v =>
      if v = JValue.str tid then Except.ok (some c) else findMatch tid cs

/-- Run a fallible search over a list and keep the first hit (the shape of
`for child in self.children: yield from child.walk()` feeding a consumer
that returns on the first match). -/
def firstSomeE (f : Doc → Except PyError (Option Resource)) :
    List Doc → Except PyError (Option Resource)
  | [] => Except.ok none
  | d :: ds =>
    match f d with
    | Except.error e => Except.error e
    | Except.ok (some c) => Except.ok (some c)
    | Except.ok none => firstSomeE f ds

/-- `catalog.py`, `Catalog.filter_by_id`: walk the tree and, for each
walked entity in order, scan the entity's children for the target id,
short-circuiting on the first match.  The walk generator and the scanned
`children` generator of the yielded triple are separate generators over
the same store, hence the two `children` calls per node. -/
def filter_by_id (fetch : Fetch) (reg : Registry) : Nat → Doc → String →
    Except PyError (Option Resource)
  | 0, _, _ => Except.error PyError.nonTermination
  | fuel + 1, d, tid =>
    match children fetch reg d with
    | Except.error e => Except.error e
    | Except.ok rs =>
      match findMatch tid rs with
      | Except.error e => Except.error e
      | Except.ok (some c) => Except.ok (some c)
      | Except.ok none =>
        match children fetch reg d with
        | Except.error e => Except.error e
        | Except.ok rs2 =>
          match mapE asWalkable rs2 with
          | Except.error e => Except.error e
          | Except.ok ds =>
            firstSomeE (fun d2 => filter_by_id fetch reg fuel d2 tid) ds

end Catalog

namespace Collection

/-- `collection.py`, `Collection.license`: `lic = self['license']`; when
the value is the sentinel `'various'`/`'proprietary'` the source calls
`self._links(RelationType.LICENSE, mandatory=True)` — but no class in the
`Collection → Catalog → Traversable → UserDict` chain defines `_links`
(the method is named `links` there), so that branch always raises
`AttributeError('_links')` before any link is filtered; any other value
is returned unchanged. -/
def license (d : Doc) : Except PyError JValue :=
  match List.lookup "license" d with
  | none => Except.error (PyError.keyError "license")
  | some lic =>
    if lic = JValue.str "various" ∨ lic = JValue.str "proprietary" then
      Except.error (PyError.attributeError "_links")
    else Except.ok lic

end Collection

/-- A deterministic HTTP store: URL to parsed JSON body. -/
def storeOf (entries : List (String × JValue)) : Fetch :=
  fun u => List.lookup u entries

/-- Target of the `root`-relation link in the C1 scenario. -/
def c1RootTarget : Doc := [("type", JValue.str "Catalog"), ("id", JValue.str "the-root")]

/-- Target of the `child`-relation link in the C1 scenario. -/
def c1ChildTarget : Doc := [("type", JValue.str "Catalog"), ("id", JValue.str "the-child")]

/-- An entity document holding one `root` link and one `child` link. -/
def c1Entity : Doc :=
  [("id", JValue.str "e"),
   ("links", JValue.arr
     [JValue.obj [("rel", JValue.str "root"), ("href", JValue.str "u-root")],
      JValue.obj [("rel", JValue.str "child"), ("href", JValue.str "u-child")]])]

/-- An entity document holding only a `root` link. -/
def c1EntityRootOnly : Doc :=
  [("id", JValue.str "e2"),
   ("links", JValue.arr
     [JValue.obj [("rel", JValue.str "root"), ("href", JValue.str "u-root")]])]

/-- Store resolving both URLs of the C1 scenario. -/
def c1Fetch : Fetch :=
  storeOf [("u-root", JValue.obj c1RootTarget), ("u-child", JValue.obj c1ChildTarget)]

/-- C1: the `root` navigation property does not filter by the `root`
relation type: all three implementations (`Traversable.root`,
`BaseContainer.root`, `Item.root`) filter by `child`.  On a document with
one `root` link and one `child` link, `root` resolves the child URL's
document; on a document whose only link is a `root` link, `root` returns
the absent value instead of resolving it. -/
theorem C1_root_property_filters_child_not_root :
    Traversable.root c1Fetch defaultRegistry c1Entity
      = Except.ok (some (Resource.catalog c1ChildTarget))
    ∧ BaseContainer.root c1Fetch defaultRegistry c1Entity
      = Except.ok (some (Resource.catalog c1ChildTarget))
    ∧ Item.root c1Fetch defaultRegistry c1Entity
      = Except.ok (some (Resource.catalog c1ChildTarget))
    ∧ Traversable.root c1Fetch defaultRegistry c1EntityRootOnly = Except.ok none
    ∧ Item.root c1Fetch defaultRegistry c1EntityRootOnly = Except.ok none
    ∧ c1ChildTarget ≠ c1RootTarget := by
  refine ⟨by decide, by decide, by decide, by decide, by decide, by decide⟩

/-- C2: `Link.rel` is `RelationType[self['rel']]`, an enum lookup by
member *name*: each recognized relation *value* (`'self'`, `'child'`,
`'item'` — exactly the strings STAC documents store, and the enumeration's
own `value` strings) raises `KeyError` (a `LookupError`); only uppercase
member names succeed; unrecognized strings raise `KeyError` as the spec
says. -/
theorem C2_link_rel_is_enum_name_lookup :
    Link.rel (Link.mk [("rel", JValue.str "self")]) = Except.error (PyError.keyError "self")
    ∧ Link.rel (Link.mk [("rel", JValue.str "child")]) = Except.error (PyError.keyError "child")
    ∧ Link.rel (Link.mk [("rel", JValue.str "item")]) = Except.error (PyError.keyError "item")
    ∧ RelationType.SELF.value = "self"
    ∧ RelationType.CHILD.value = "child"
    ∧ Link.rel (Link.mk [("rel", JValue.str "SELF")]) = Except.ok RelationType.SELF
    ∧ Link.rel (Link.mk [("rel", JValue.str "not-a-relation")])
      = Except.error (PyError.keyError "not-a-relation") := by
  refine ⟨by decide, by decide, by decide, by decide, by decide, by decide, by decide⟩

/-- A Collection document with the sentinel license and a license link. -/
def c9Sentinel : Doc :=
  [("id", JValue.str "c"), ("license", JValue.str "various"),
   ("links", JValue.arr
     [JValue.obj [("rel", JValue.str "license"), ("href", JValue.str "u-lic")]])]

/-- C9: accessing `license` on a Collection whose `license` value is a
sentinel always raises `AttributeError('_links')` — even when a
`license`-relation link is present — because `Collection.license` calls
`self._links`, a method that does not exist anywhere in the
`Collection → Catalog → Traversable → UserDict` chain (it is named
`links` there); it never reaches the mandatory link filter, so it cannot
raise `NoLinkFoundError`.  Non-sentinel license strings are returned
unchanged, as the claim says. -/
theorem C9_license_sentinel_raises_attribute_error :
    Collection.license c9Sentinel = Except.error (PyError.attributeError "_links")
    ∧ Collection.license [("license", JValue.str "proprietary")]
      = Except.error (PyError.attributeError "_links")
    ∧ Collection.license [("license", JValue.str "MIT")] = Except.ok (JValue.str "MIT") := by
  refine ⟨by decide, by decide, by decide⟩

/-- C3 counterexample store, root: children `uA` and `uB`. -/
def c3Root : Doc :=
  [("type", JValue.str "Catalog"), ("id", JValue.str "r"),
   ("links", JValue.arr
     [JValue.obj [("rel", JValue.str "child"), ("href", JValue.str "uA")],
      JValue.obj [("rel", JValue.str "child"), ("href", JValue.str "uB")]])]

/-- First child of the root; its own child is `uX`. -/
def c3A : Doc :=
  [("type", JValue.str "Catalog"), ("id", JValue.str "a"),
   ("links", JValue.arr
     [JValue.obj [("rel", JValue.str "child"), ("href", JValue.str "uX")]])]

/-- Second child of the root, with the duplicated id. -/
def c3B : Doc :=
  [("type", JValue.str "Catalog"), ("id", JValue.str "dup"), ("title", JValue.str "b")]

/-- Grandchild (child of `c3A`), with the duplicated id. -/
def c3X : Doc :=
  [("type", JValue.str "Catalog"), ("id", JValue.str "dup"), ("title", JValue.str "x")]

/-- The C3 counterexample store. -/
def c3Fetch : Fetch :=
  storeOf [("uA", JValue.obj c3A), ("uB", JValue.obj c3B), ("uX", JValue.obj c3X)]

/-- C3 counterexample: the depth-first entity order of the walk is
`r, a, x, b`, so the first match for the duplicated id `"dup"` in
depth-first order is the grandchild `c3X` — but `filter_by_id` returns
the sibling `c3B`, because it scans each walked entity's *direct
children* (here: the root's children `a, b`) before descending. -/
theorem C3_filter_by_id_not_depth_first :
    Catalog.filter_by_id c3Fetch defaultRegistry 9 c3Root "dup"
      = Except.ok (some (Resource.catalog c3B))
    ∧ Catalog.walk c3Fetch defaultRegistry 9 c3Root = Except.ok [c3Root, c3A, c3X, c3B]
    ∧ List.lookup "id" c3X = some (JValue.str "dup")
    ∧ List.lookup "id" c3B = some (JValue.str "dup")
    ∧ List.lookup "id" c3A = some (JValue.str "a")
    ∧ c3B ≠ c3X := by
  refine ⟨by decide, by decide, by decide, by decide, by decide, by decide⟩

/-- C8 counterexample store (a finite acyclic diamond): the root's
children are `uA8` and `uB8`, and both of those have the single child
`uC8`. -/
def c8Root : Doc :=
  [("type", JValue.str "Catalog"), ("id", JValue.str "r8"),
   ("links", JValue.arr
     [JValue.obj [("rel", JValue.str "child"), ("href", JValue.str "uA8")],
      JValue.obj [("rel", JValue.str "child"), ("href", JValue.str "uB8")]])]

/-- Left parent of the shared child. -/
def c8A : Doc :=
  [("type", JValue.str "Catalog"), ("id", JValue.str "a8"),
   ("links", JValue.arr
     [JValue.obj [("rel", JValue.str "child"), ("href", JValue.str "uC8")]])]

/-- Right parent of the shared child. -/
def c8B : Doc :=
  [("type", JValue.str "Catalog"), ("id", JValue.str "b8"),
   ("links", JValue.arr
     [JValue.obj [("rel", JValue.str "child"), ("href", JValue.str "uC8")]])]

/-- The shared child, reachable along two distinct child-link paths. -/
def c8C : Doc := [("type", JValue.str "Catalog"), ("id", JValue.str "c8")]

/-- The C8 counterexample store. -/
def c8Fetch : Fetch :=
  storeOf [("uA8", JValue.obj c8A), ("uB8", JValue.obj c8B), ("uC8", JValue.obj c8C)]

/-- C8 counterexample: on a finite *acyclic* link graph that is not a
tree (a diamond: two parents sharing one child) the walk yields the
shared entity once per child-link path — here `c8C` appears twice — so
"every reachable entity exactly once" fails for merely acyclic graphs. -/
theorem C8_walk_revisits_shared_descendant :
    Catalog.walk c8Fetch defaultRegistry 9 c8Root = Except.ok [c8Root, c8A, c8C, c8B, c8C]
    ∧ [c8Root, c8A, c8C, c8B, c8C].count c8C = 2
    ∧ c8Root ≠ c8A ∧ c8Root ≠ c8B ∧ c8Root ≠ c8C
    ∧ c8A ≠ c8B ∧ c8A ≠ c8C ∧ c8B ≠ c8C := by
  refine ⟨by decide, by decide, by decide, by decide, by decide, by decide, by decide, by decide⟩

/-- Whether one link mapping satisfies the `rel` filter predicate
`link['rel'] == rel_type.value`. -/
def relMatch (r : RelationType) (fs : Doc) : Bool :=
  decide (List.lookup "rel" fs = some (JValue.str r.value))

/-- On a list of link mappings that all carry a `rel` key, the filtering
comprehension succeeds and keeps exactly the matching mappings in order. -/
theorem selectRel_map_obj (r : RelationType) :
    ∀ (xs : List Doc), (∀ fs ∈ xs, (List.lookup "rel" fs).isSome = true) →
      selectRel r (xs.map JValue.obj)
        = Except.ok ((xs.filter (relMatch r)).map JValue.obj)
  | [], _ => rfl
  | fs :: xs, h => by
    have hhead := h fs (List.mem_cons_self fs xs)
    obtain ⟨rv, hrv⟩ := Option.isSome_iff_exists.mp hhead
    have htail := selectRel_map_obj r xs (fun g hg => h g (List.mem_cons_of_mem _ hg))
    by_cases hc : rv = JValue.str r.value
    · subst hc
      simp [selectRel, hrv, htail, List.filter_cons, relMatch]
    · simp [selectRel, hrv, htail, List.filter_cons, relMatch, hc]

/-- The `Links` constructor coerces a list of raw mappings elementwise. -/
theorem mkLinks_map_obj : ∀ (xs : List Doc),
    mkLinks (xs.map JValue.obj) = Except.ok (xs.map Link.mk)
  | [] => rfl
  | fs :: xs => by simp [mkLinks, mkLinks_map_obj xs]

/-- C4: on a link collection whose elements all carry a `rel` key,
filtering with `single=True` (and `mandatory=False`) raises the
"found more than one link" `RuntimeError` (the spec's AmbiguousLinkError)
exactly when more than one element matches the relation, and returns the
empty collection — no error, no scalar — when no element matches. -/
theorem C4_single_filter_cardinality (d : Doc) (xs : List Doc) (r : RelationType)
    (hwf : ∀ fs ∈ xs, (List.lookup "rel" fs).isSome = true)
    (hd : List.lookup "links" d = some (JValue.arr (xs.map JValue.obj))) :
    (1 < xs.countP (relMatch r) →
      Traversable.links d (some r) true false
        = Except.error (PyError.runtimeError (manyLinkMsg (some r))))
    ∧ (xs.countP (relMatch r) = 0 →
      Traversable.links d (some r) true false = Except.ok []) := by
  have hsel := selectRel_map_obj r xs hwf
  have hlen : ((xs.filter (relMatch r)).map JValue.obj).length = xs.countP (relMatch r) := by
    simp [List.countP_eq_length_filter]
  constructor
  · intro hgt
    simp only [Traversable.links, getLinksDefault, hd, linksBody, selectLinks, hsel]
    rw [if_neg (by simp), if_pos (by simp [hlen, hgt])]
  · intro hzero
    have hfil : xs.filter (relMatch r) = [] := by
      have := List.countP_eq_length_filter (relMatch r) xs
      rw [hzero] at this
      exact List.length_eq_zero.mp this.symm
    simp only [Traversable.links, getLinksDefault, hd, linksBody, selectLinks, hsel, hfil]
    rw [if_neg (by simp), if_neg (by simp)]
    rfl

/-- C4 witness: two `self` links trigger the ambiguity error, and a
relation with no matching link yields the empty collection. -/
theorem C4_single_filter_cardinality_witness :
    (∀ fs ∈ [[("rel", JValue.str "self")], [("rel", JValue.str "self")]],
      (List.lookup "rel" fs).isSome = true)
    ∧ (1 < ([[("rel", JValue.str "self")], [("rel", JValue.str "self")]].countP
        (relMatch RelationType.SELF)) →
      Traversable.links
        [("links", JValue.arr
          [JValue.obj [("rel", JValue.str "self")], JValue.obj [("rel", JValue.str "self")]])]
        (some RelationType.SELF) true false
        = Except.error (PyError.runtimeError (manyLinkMsg (some RelationType.SELF))))
    ∧ ([[("rel", JValue.str "self")], [("rel", JValue.str "self")]].countP
        (relMatch RelationType.PARENT) = 0 →
      Traversable.links
        [("links", JValue.arr
          [JValue.obj [("rel", JValue.str "self")], JValue.obj [("rel", JValue.str "self")]])]
        (some RelationType.PARENT) true false = Except.ok []) := by
  refine ⟨by decide, ?_, ?_⟩
  · exact (C4_single_filter_cardinality _ _ RelationType.SELF (by decide) (by decide)).1
  · exact (C4_single_filter_cardinality _ _ RelationType.PARENT (by decide) (by decide)).2

/-- C5: with `mandatory=True` the filter raises the "no link found"
`RuntimeError` (the spec's NoLinkFoundError) precisely when no element
matches the relation; when at least one matches it returns the
order-preserving filtered collection. -/
theorem C5_mandatory_filter (d : Doc) (xs : List Doc) (r : RelationType)
    (hwf : ∀ fs ∈ xs, (List.lookup "rel" fs).isSome = true)
    (hd : List.lookup "links" d = some (JValue.arr (xs.map JValue.obj))) :
    (xs.countP (relMatch r) = 0 →
      Traversable.links d (some r) false true
        = Except.error (PyError.runtimeError (noLinkMsg (some r))))
    ∧ (0 < xs.countP (relMatch r) →
      Traversable.links d (some r) false true
        = Except.ok ((xs.filter (relMatch r)).map Link.mk)) := by
  have hsel := selectRel_map_obj r xs hwf
  constructor
  · intro hzero
    have hfil : xs.filter (relMatch r) = [] := by
      have := List.countP_eq_length_filter (relMatch r) xs
      rw [hzero] at this
      exact List.length_eq_zero.mp this.symm
    simp only [Traversable.links, getLinksDefault, hd, linksBody, selectLinks, hsel, hfil]
    rw [if_pos (by simp)]
  · intro hpos
    have hfil : xs.filter (relMatch r) ≠ [] := by
      intro hnil
      have := List.countP_eq_length_filter (relMatch r) xs
      rw [hnil] at this
      simp only [List.length_nil] at this
      omega
    simp only [Traversable.links, getLinksDefault, hd, linksBody, selectLinks, hsel]
    rw [if_neg (by simp [hfil]), if_neg (by simp), mkLinks_map_obj]

/-- C5 witness: no `parent` link raises the mandatory error; one `child`
link among two entries is returned as the filtered collection. -/
theorem C5_mandatory_filter_witness :
    ([[("rel", JValue.str "child")], [("rel", JValue.str "self")]].countP
      (relMatch RelationType.PARENT) = 0 →
      Traversable.links
        [("links", JValue.arr
          [JValue.obj [("rel", JValue.str "child")], JValue.obj [("rel", JValue.str "self")]])]
        (some RelationType.PARENT) false true
        = Except.error (PyError.runtimeError (noLinkMsg (some RelationType.PARENT))))
    ∧ (0 < [[("rel", JValue.str "child")], [("rel", JValue.str "self")]].countP
        (relMatch RelationType.CHILD) →
      Traversable.links
        [("links", JValue.arr
          [JValue.obj [("rel", JValue.str "child")], JValue.obj [("rel", JValue.str "self")]])]
        (some RelationType.CHILD) false true
        = Except.ok (([[("rel", JValue.str "child")], [("rel", JValue.str "self")]].filter
            (relMatch RelationType.CHILD)).map Link.mk)) := by
  refine ⟨?_, ?_⟩
  · exact (C5_mandatory_filter _ _ RelationType.PARENT (by decide) (by decide)).1
  · exact (C5_mandatory_filter _ _ RelationType.CHILD (by decide) (by decide)).2

/-- C6: with no registered constructor for the document's explicit type
tag, the classifier applies the structural heuristic in precedence order —
any of `extent`/`providers`/`properties` classifies as Collection; else
all of `stac_version`/`description`/`links` classifies as Catalog; else
the raw document comes back unmodified, with no error.  In particular a
document with `extent` *and* the full Catalog signature is a Collection. -/
theorem C6_structural_heuristic (d : Doc)
    (hreg : registeredFor defaultRegistry d = none) :
    ((hasKey d "extent" || hasKey d "providers" || hasKey d "properties") = true →
      ResourceFactory.make defaultRegistry (JValue.obj d) = Except.ok (Resource.collection d))
    ∧ ((hasKey d "extent" || hasKey d "providers" || hasKey d "properties") = false →
       (hasKey d "stac_version" && hasKey d "description" && hasKey d "links") = true →
      ResourceFactory.make defaultRegistry (JValue.obj d) = Except.ok (Resource.catalog d))
    ∧ ((hasKey d "extent" || hasKey d "providers" || hasKey d "properties") = false →
       (hasKey d "stac_version" && hasKey d "description" && hasKey d "links") = false →
      ResourceFactory.make defaultRegistry (JValue.obj d)
        = Except.ok (Resource.raw (JValue.obj d)))
    ∧ (hasKey d "extent" = true →
       (hasKey d "stac_version" && hasKey d "description" && hasKey d "links") = true →
      ResourceFactory.make defaultRegistry (JValue.obj d)
        = Except.ok (Resource.collection d)) := by
  refine ⟨?_, ?_, ?_, ?_⟩
  · intro hcoll
    simp only [ResourceFactory.make, hreg, hcoll]
    rfl
  · intro hncoll hcat
    simp only [ResourceFactory.make, hreg, hncoll, hcat]
    rfl
  · intro hncoll hncat
    simp only [ResourceFactory.make, hreg, hncoll, hncat]
    rfl
  · intro hext hcat
    have hcoll : (hasKey d "extent" || hasKey d "providers" || hasKey d "properties") = true := by
      simp [hext]
    simp only [ResourceFactory.make, hreg, hcoll]
    rfl

/-- A document carrying `extent` together with the full Catalog
signature, and no explicit type tag. -/
def c6Doc : Doc :=
  [("stac_version", JValue.str "1.0.0"), ("description", JValue.str "d"),
   ("links", JValue.arr []), ("extent", JValue.obj [])]

/-- C6 witness: `c6Doc` has no registered type tag, and the heuristic
classifies it as Collection, never Catalog. -/
theorem C6_structural_heuristic_witness :
    registeredFor defaultRegistry c6Doc = none
    ∧ (hasKey c6Doc "extent" = true →
       (hasKey c6Doc "stac_version" && hasKey c6Doc "description"
         && hasKey c6Doc "links") = true →
      ResourceFactory.make defaultRegistry (JValue.obj c6Doc)
        = Except.ok (Resource.collection c6Doc)) := by
  refine ⟨rfl, ?_⟩
  exact (C6_structural_heuristic c6Doc rfl).2.2.2

/-- C7: a document whose explicit `type` tag has a registered constructor
is dispatched to that constructor, for any registry contents — the
registry is open, and the explicit tag takes precedence over the
structural heuristic.  In particular, under the registry populated by
`stac.py`, a tag of `"Collection"` wins even on a document whose
structure (full Catalog signature, no `extent`) would suggest Catalog. -/
theorem C7_explicit_tag_dispatch :
    (∀ (reg : Registry) (d : Doc) (t : String) (f : Doc → Resource),
      List.lookup "type" d = some (JValue.str t) →
      List.lookup t reg = some f →
      ResourceFactory.make reg (JValue.obj d) = Except.ok (f d))
    ∧ (∀ d : Doc,
      List.lookup "type" d = some (JValue.str "Collection") →
      (hasKey d "stac_version" && hasKey d "description" && hasKey d "links") = true →
      hasKey d "extent" = false →
      ResourceFactory.make defaultRegistry (JValue.obj d)
        = Except.ok (Resource.collection d)) := by
  have hmain : ∀ (reg : Registry) (d : Doc) (t : String) (f : Doc → Resource),
      List.lookup "type" d = some (JValue.str t) →
      List.lookup t reg = some f →
      ResourceFactory.make reg (JValue.obj d) = Except.ok (f d) := by
    intro reg d t f htag hf
    simp [ResourceFactory.make, registeredFor, htag, hf]
  refine ⟨hmain, ?_⟩
  intro d htag _ _
  exact hmain defaultRegistry d "Collection" Resource.collection htag rfl

/-- A Catalog-shaped document tagged `"Collection"`. -/
def c7Doc : Doc :=
  [("type", JValue.str "Collection"), ("stac_version", JValue.str "1.0.0"),
   ("description", JValue.str "d"), ("links", JValue.arr [])]

/-- C7 witness: `c7Doc` is classified as Collection under the default
registry, although its structure suggests Catalog. -/
theorem C7_explicit_tag_dispatch_witness :
    List.lookup "type" c7Doc = some (JValue.str "Collection")
    ∧ (hasKey c7Doc "stac_version" && hasKey c7Doc "description"
        && hasKey c7Doc "links") = true
    ∧ hasKey c7Doc "extent" = false
    ∧ ResourceFactory.make defaultRegistry (JValue.obj c7Doc)
      = Except.ok (Resource.collection c7Doc) := by
  refine ⟨by decide, by decide, by decide, ?_⟩
  exact C7_explicit_tag_dispatch.2 c7Doc (by decide) (by decide) (by decide)

/-- C10: on a document with no `links` key, every link-based accessor of
`Item` fails with `KeyError('links')` (a `LookupError`, from the strict
`self['links']` in `Item._links`), while the `Catalog`/`Collection` side
(`Traversable.links` with its `self.get('links', [])` default) treats the
link list as empty: `url`, `parent` and `root` return the absent value
and `children`/`items` yield no elements. -/
theorem C10_missing_links_key (fetch : Fetch) (reg : Registry) (d : Doc)
    (h : List.lookup "links" d = none) :
    Item.links d none false false = Except.error (PyError.keyError "links")
    ∧ Item.url d = Except.error (PyError.keyError "links")
    ∧ Item.parent fetch reg d = Except.error (PyError.keyError "links")
    ∧ Item.root fetch reg d = Except.error (PyError.keyError "links")
    ∧ Item.collection fetch reg d = Except.error (PyError.keyError "links")
    ∧ Traversable.links d none false false = Except.ok []
    ∧ Traversable.url d = Except.ok none
    ∧ Traversable.parent fetch reg d = Except.ok none
    ∧ Traversable.root fetch reg d = Except.ok none
    ∧ Catalog.children fetch reg d = Except.ok []
    ∧ Catalog.items fetch reg d = Except.ok [] := by
  have hitem : ∀ rel single mandatory,
      Item.links d rel single mandatory = Except.error (PyError.keyError "links") := by
    intro rel single mandatory
    simp [Item.links, itemGetLinks, h]
  have htrav : ∀ rel single,
      Traversable.links d rel single false = Except.ok [] := by
    intro rel single
    cases rel with
    | none => simp [Traversable.links, getLinksDefault, h, linksBody, selectLinks, mkLinks]
    | some r =>
      simp [Traversable.links, getLinksDefault, h, linksBody, selectLinks, selectRel, mkLinks]
  refine ⟨hitem none false false, ?_, ?_, ?_, ?_, htrav none false, ?_, ?_, ?_, ?_, ?_⟩
  · simp [Item.url, hitem]
  · simp [Item.parent, hitem]
  · simp [Item.root, hitem]
  · simp [Item.collection, hitem]
  · simp [Traversable.url, htrav]
  · simp [Traversable.parent, htrav]
  · simp [Traversable.root, htrav]
  · simp [Catalog.children, htrav, mapE]
  · simp [Catalog.items, htrav, mapE]

/-- C10 witness: a concrete document without a `links` key. -/
theorem C10_missing_links_key_witness :
    List.lookup "links" [("id", JValue.str "x")] = none
    ∧ Item.url [("id", JValue.str "x")] = Except.error (PyError.keyError "links")
    ∧ Traversable.url [("id", JValue.str "x")] = Except.ok none
    ∧ Catalog.children (storeOf []) defaultRegistry [("id", JValue.str "x")]
      = Except.ok [] := by
  have h := C10_missing_links_key (storeOf []) defaultRegistry
    [("id", JValue.str "x")] (by decide)
  exact ⟨by decide, h.2.1, h.2.2.2.2.2.2.1, h.2.2.2.2.2.2.2.2.2.1⟩

/-- A finite unfolding of a link store into a forest of container
entities, in first-child / next-sibling form: `leaf` is the empty forest
and `node d c s` is a tree with root document `d` and child forest `c`,
followed by the sibling forest `s`.  This shape is the specification-side
witness that a store is tree-like below a root. -/
inductive FS where
  | leaf : FS
  | node (doc : Doc) (child : FS) (sibling : FS) : FS
deriving DecidableEq

namespace FS

/-- All documents of the forest, in depth-first pre-order (each tree's
root, then its descendants, then its siblings). -/
def docs : FS → List Doc
  | leaf => []
  | node d c s => d :: (docs c ++ docs s)

/-- The root documents of the forest's top-level trees, in order. -/
def tops : FS → List Doc
  | leaf => []
  | node d _ s => d :: tops s

/-- The maximal depth of a tree of the forest. -/
def heightF : FS → Nat
  | leaf => 0
  | node _ c s => max (heightF c + 1) (heightF s)

/-- The candidate order in which `filter_by_id` examines entities: for
each entity of the forest in depth-first walk order, that entity's
direct children in link order. -/
def scanF : FS → List Doc
  | leaf => []
  | node _ c s => tops c ++ (scanF c ++ scanF s)

end FS

/-- Project a list of resolved children to their wrapped documents; fails
(`none`) if any of them is not a `Catalog`/`Collection`. -/
def allContainers : List Resource → Option (List Doc)
  | [] => some []
  | r :: rs =>
    match containerDoc r with
    | none => none
    | some d =>
      match allContainers rs with
      | none => none
      | some ds => some (d :: ds)

/-- The store `fetch` (with classifier registry `reg`) realizes the
forest: every forest document has an `id` key, resolving its `child`
links succeeds and yields exactly the container documents at the roots of
its child forest, in order, and recursively so.  This is the formal
reading of "the link graph reachable from the root unfolds into this
finite tree". -/
def realizesF (fetch : Fetch) (reg : Registry) : FS → Bool
  | FS.leaf => true
  | FS.node d c s =>
    hasKey d "id"
    && (match Catalog.children fetch reg d with
        | Except.error _ => false
        | Except.ok rs => decide (allContainers rs = some (FS.tops c)))
    && realizesF fetch reg c
    && realizesF fetch reg s

/-- One navigation step of the link graph: `b` is the document of a
container resource obtained by resolving one of `a`'s `child` links. -/
def childStep (fetch : Fetch) (reg : Registry) (a b : Doc) : Prop :=
  ∃ rs r, Catalog.children fetch reg a = Except.ok rs ∧ r ∈ rs ∧ containerDoc r = some b

/-- `child.id == id` as a predicate on a document (Python compares the
raw JSON `id` value against the target string). -/
def idMatches (tid : String) (fs : Doc) : Bool :=
  decide (List.lookup "id" fs = some (JValue.str tid))

/-- How an optional search result of `filter_by_id` realizes an optional
specification document: `none` means the call returns the absent value,
`some dr` means it returns some container resource wrapping `dr`. -/
def RelOpt (e : Except PyError (Option Resource)) (o : Option Doc) : Prop :=
  match o with
  | none => e = Except.ok none
  | some dr => ∃ r, e = Except.ok (some r) ∧ containerDoc r = some dr

/-- Unfolding `realizesF` at a `node`. -/
theorem realizesF_node_iff (fetch : Fetch) (reg : Registry) (d : Doc) (c s : FS) :
    realizesF fetch reg (FS.node d c s) = true ↔
      hasKey d "id" = true
      ∧ (∃ rs, Catalog.children fetch reg d = Except.ok rs
          ∧ allContainers rs = some (FS.tops c))
      ∧ realizesF fetch reg c = true ∧ realizesF fetch reg s = true := by
  simp only [realizesF, Bool.and_eq_true]
  constructor
  · rintro ⟨⟨⟨hid, hm⟩, hc⟩, hs⟩
    refine ⟨hid, ?_, hc, hs⟩
    cases hch : Catalog.children fetch reg d with
    | error e => rw [hch] at hm; simp at hm
    | ok rs =>
      rw [hch] at hm
      exact ⟨rs, rfl, of_decide_eq_true hm⟩
  · rintro ⟨hid, ⟨rs, hch, hac⟩, hc, hs⟩
    refine ⟨⟨⟨hid, ?_⟩, hc⟩, hs⟩
    rw [hch]
    exact decide_eq_true hac

/-- `mapE` succeeds pointwise. -/
theorem mapE_ok_of_forall {α β : Type} {f : α → Except PyError β} {g : α → β} :
    ∀ {xs : List α}, (∀ x ∈ xs, f x = Except.ok (g x)) →
      mapE f xs = Except.ok (xs.map g)
  | [], _ => rfl
  | x :: xs, h => by
    have hx := h x (List.mem_cons_self x xs)
    have ht : mapE f xs = Except.ok (xs.map g) :=
      mapE_ok_of_forall (fun y hy => h y (List.mem_cons_of_mem _ hy))
    simp [mapE, hx, ht]

/-- If every resolved child is a container, `child.walk()` resolves. -/
theorem mapE_asWalkable_of_allContainers :
    ∀ {rs : List Resource} {ds : List Doc}, allContainers rs = some ds →
      mapE asWalkable rs = Except.ok ds
  | [], ds, h => by
    simp [allContainers] at h
    simp [mapE, ← h]
  | r :: rs, ds, h => by
    cases hcd : containerDoc r with
    | none => simp [allContainers, hcd] at h
    | some d0 =>
      cases hac : allContainers rs with
      | none => simp [allContainers, hcd, hac] at h
      | some ds' =>
        have := mapE_asWalkable_of_allContainers hac
        simp [allContainers, hcd, hac] at h
        simp [mapE, asWalkable, hcd, this, ← h]

/-- Membership transfer from the projected documents to the resources. -/
theorem allContainers_mem :
    ∀ {rs : List Resource} {ds : List Doc}, allContainers rs = some ds →
      ∀ b ∈ ds, ∃ r ∈ rs, containerDoc r = some b
  | [], ds, h, b, hb => by
    simp [allContainers] at h
    subst h
    cases hb
  | r :: rs, ds, h, b, hb => by
    cases hcd : containerDoc r with
    | none => simp [allContainers, hcd] at h
    | some d0 =>
      cases hac : allContainers rs with
      | none => simp [allContainers, hcd, hac] at h
      | some ds' =>
        simp [allContainers, hcd, hac] at h
        subst h
        rcases List.mem_cons.mp hb with hb0 | hbs
        · exact ⟨r, List.mem_cons_self r rs, by rw [hcd, hb0]⟩
        · obtain ⟨r', hr', hcd'⟩ := allContainers_mem hac b hbs
          exact ⟨r', List.mem_cons_of_mem _ hr', hcd'⟩

/-- Membership transfer from the resources to the projected documents. -/
theorem allContainers_mem_rev :
    ∀ {rs : List Resource} {ds : List Doc}, allContainers rs = some ds →
      ∀ r ∈ rs, ∀ b, containerDoc r = some b → b ∈ ds
  | [], _, _, r, hr, _, _ => absurd hr (List.not_mem_nil r)
  | r0 :: rs, ds, h, r, hr, b, hb => by
    cases hcd : containerDoc r0 with
    | none => simp [allContainers, hcd] at h
    | some d0 =>
      cases hac : allContainers rs with
      | none => simp [allContainers, hcd, hac] at h
      | some ds' =>
        simp [allContainers, hcd, hac] at h
        subst h
        rcases List.mem_cons.mp hr with hr0 | hrs
        · subst hr0
          rw [hcd] at hb
          cases hb
          exact List.mem_cons_self _ _
        · exact List.mem_cons_of_mem _ (allContainers_mem_rev hac r hrs b hb)

/-- The walk output of each top-level tree of a forest: the tree's root
followed by its descendant documents in depth-first order. -/
def walkLists : FS → List (List Doc)
  | FS.leaf => []
  | FS.node d c s => (d :: FS.docs c) :: walkLists s

/-- Flattening the per-tree walk outputs gives the forest's pre-order. -/
theorem walkLists_flatten : ∀ fs : FS, (walkLists fs).flatten = FS.docs fs
  | FS.leaf => rfl
  | FS.node d c s => by
    simp [walkLists, FS.docs, walkLists_flatten s]

/-- Height bound decomposition at a node. -/
theorem heightF_node_le {d : Doc} {c s : FS} {fuel : Nat}
    (h : FS.heightF (FS.node d c s) ≤ fuel) :
    FS.heightF c + 1 ≤ fuel ∧ FS.heightF s ≤ fuel := by
  simp only [FS.heightF, Nat.max_le] at h
  exact h

/-- On a realized forest with enough fuel, walking each top-level root
produces exactly the per-tree pre-orders. -/
theorem walkF_realized (fetch : Fetch) (reg : Registry) :
    ∀ (fs : FS) (fuel : Nat), realizesF fetch reg fs = true →
      FS.heightF fs ≤ fuel →
      mapE (fun d2 => Catalog.walk fetch reg fuel d2) (FS.tops fs)
        = Except.ok (walkLists fs)
  | FS.leaf, _, _, _ => rfl
  | FS.node d c s, fuel, hreal, hfuel => by
    obtain ⟨hid, ⟨rs, hch, hac⟩, hrc, hrs⟩ := (realizesF_node_iff fetch reg d c s).mp hreal
    obtain ⟨hhc, hhs⟩ := heightF_node_le hfuel
    cases fuel with
    | zero => omega
    | succ f =>
      have ihc := walkF_realized fetch reg c f hrc (by omega)
      have ihs := walkF_realized fetch reg s (f + 1) hrs hhs
      have hwalkd : Catalog.walk fetch reg (f + 1) d = Except.ok (d :: FS.docs c) := by
        simp only [Catalog.walk, hch, mapE_asWalkable_of_allContainers hac, ihc,
          walkLists_flatten c]
      simp only [FS.tops, mapE, hwalkd, ihs, walkLists]

/-- `walk` on the root of a realized single tree returns the depth-first
pre-order of the tree. -/
theorem walk_realized_tree (fetch : Fetch) (reg : Registry) (d : Doc) (c : FS) (fuel : Nat)
    (hreal : realizesF fetch reg (FS.node d c FS.leaf) = true)
    (hfuel : FS.heightF (FS.node d c FS.leaf) ≤ fuel) :
    Catalog.walk fetch reg fuel d = Except.ok (d :: FS.docs c) := by
  have h := walkF_realized fetch reg (FS.node d c FS.leaf) fuel hreal hfuel
  simp only [FS.tops, mapE] at h
  cases hw : Catalog.walk fetch reg fuel d with
  | error e => rw [hw] at h; simp at h
  | ok l =>
    rw [hw] at h
    simp only [walkLists] at h
    simp at h
    rw [h]

/-- One step into a realized node reaches exactly the roots of its child
forest. -/
theorem step_of_realizes {fetch : Fetch} {reg : Registry} {d : Doc} {c s : FS}
    (hreal : realizesF fetch reg (FS.node d c s) = true) :
    ∀ b ∈ FS.tops c, childStep fetch reg d b := by
  obtain ⟨_, ⟨rs, hch, hac⟩, _, _⟩ := (realizesF_node_iff fetch reg d c s).mp hreal
  intro b hb
  obtain ⟨r, hr, hcd⟩ := allContainers_mem hac b hb
  exact ⟨rs, r, hch, hr, hcd⟩

/-- Soundness of the visit set: any document reachable from a top-level
root of a realized forest lies among the forest's documents. -/
theorem reach_fwd (fetch : Fetch) (reg : Registry) :
    ∀ fs : FS, realizesF fetch reg fs = true →
      ∀ r ∈ FS.tops fs, ∀ y, Relation.ReflTransGen (childStep fetch reg) r y →
        y ∈ FS.docs fs
  | FS.leaf, _, r, hr, _, _ => absurd hr (List.not_mem_nil r)
  | FS.node d c s, hreal, r, hr, y, hpath => by
    obtain ⟨hid, ⟨rs, hch, hac⟩, hrc, hrs⟩ := (realizesF_node_iff fetch reg d c s).mp hreal
    rcases List.mem_cons.mp hr with hrd | hrsib
    · subst hrd
      rcases Relation.ReflTransGen.cases_head hpath with hy | ⟨b, hstep, hrest⟩
      · subst hy
        exact List.mem_cons_self _ _
      · obtain ⟨rs', r', hch', hr', hcd'⟩ := hstep
        rw [hch] at hch'
        cases hch'
        have hb : b ∈ FS.tops c := allContainers_mem_rev hac r' hr' b hcd'
        have := reach_fwd fetch reg c hrc b hb y hrest
        simp [FS.docs]
        right; left; exact this
    · have := reach_fwd fetch reg s hrs r hrsib y hpath
      simp [FS.docs]
      right; right; exact this

/-- Completeness of the visit set: every document of a realized forest is
reachable from one of the forest's top-level roots. -/
theorem reach_bwd (fetch : Fetch) (reg : Registry) :
    ∀ fs : FS, realizesF fetch reg fs = true →
      ∀ y ∈ FS.docs fs, ∃ r ∈ FS.tops fs, Relation.ReflTransGen (childStep fetch reg) r y
  | FS.leaf, _, y, hy => absurd hy (List.not_mem_nil y)
  | FS.node d c s, hreal, y, hy => by
    obtain ⟨hid, ⟨rs, hch, hac⟩, hrc, hrs⟩ := (realizesF_node_iff fetch reg d c s).mp hreal
    simp only [FS.docs, List.mem_cons, List.mem_append] at hy
    rcases hy with hyd | hyc | hys
    · exact ⟨d, List.mem_cons_self _ _, by rw [hyd]⟩
    · obtain ⟨b, hb, hpath⟩ := reach_bwd fetch reg c hrc y hyc
      have hstep := step_of_realizes hreal b hb
      exact ⟨d, List.mem_cons_self _ _, Relation.ReflTransGen.head hstep hpath⟩
    · obtain ⟨b, hb, hpath⟩ := reach_bwd fetch reg s hrs y hys
      exact ⟨b, List.mem_cons_of_mem _ hb, hpath⟩

/-- In a duplicate-free list, a member is counted exactly once. -/
theorem countP_eq_one_of_nodup_mem {α : Type} [DecidableEq α] {l : List α} {x : α}
    (hn : l.Nodup) (hx : x ∈ l) : l.countP (fun y => decide (y = x)) = 1 := by
  induction l with
  | nil => cases hx
  | cons a l ih =>
    rw [List.countP_cons]
    rcases List.mem_cons.mp hx with h0 | hmem
    · subst h0
      have hz : l.countP (fun y => decide (y = x)) = 0 := by
        rw [List.countP_eq_zero]
        intro b hb
        simp only [decide_eq_true_eq]
        intro hbx
        apply (List.nodup_cons.mp hn).1
        rw [← hbx]
        exact hb
      simp [hz]
    · have hnl := (List.nodup_cons.mp hn).2
      have hax : a ≠ x := fun h => (List.nodup_cons.mp hn).1 (h ▸ hmem)
      simp [ih hnl hmem, hax]

/-- C8 (amended): when the link graph below `d` unfolds into a finite
tree (`realizesF`) and the fuel covers its height, `walk` succeeds and
yields exactly the depth-first pre-order of the tree; the yielded set is
exactly the set of documents reachable from `d` via child links, and when
the tree's documents are pairwise distinct every reachable document is
yielded exactly once. -/
theorem C8_walk_depth_first (fetch : Fetch) (reg : Registry) (d : Doc) (c : FS) (fuel : Nat)
    (hreal : realizesF fetch reg (FS.node d c FS.leaf) = true)
    (hfuel : FS.heightF (FS.node d c FS.leaf) ≤ fuel) :
    Catalog.walk fetch reg fuel d = Except.ok (FS.docs (FS.node d c FS.leaf))
    ∧ (∀ x, x ∈ FS.docs (FS.node d c FS.leaf)
        ↔ Relation.ReflTransGen (childStep fetch reg) d x)
    ∧ ((FS.docs (FS.node d c FS.leaf)).Nodup →
        ∀ x, Relation.ReflTransGen (childStep fetch reg) d x →
          (FS.docs (FS.node d c FS.leaf)).countP (fun y => decide (y = x)) = 1) := by
  have hdocs : FS.docs (FS.node d c FS.leaf) = d :: FS.docs c := by
    simp [FS.docs]
  have hiff : ∀ x, x ∈ FS.docs (FS.node d c FS.leaf)
      ↔ Relation.ReflTransGen (childStep fetch reg) d x := by
    intro x
    constructor
    · intro hx
      obtain ⟨r, hr, hpath⟩ := reach_bwd fetch reg (FS.node d c FS.leaf) hreal x hx
      simp [FS.tops] at hr
      rw [← hr]
      exact hpath
    · intro hpath
      exact reach_fwd fetch reg (FS.node d c FS.leaf) hreal d
        (by simp [FS.tops]) x hpath
  refine ⟨?_, hiff, ?_⟩
  · rw [hdocs]
    exact walk_realized_tree fetch reg d c fuel hreal hfuel
  · intro hnodup x hpath
    exact countP_eq_one_of_nodup_mem hnodup ((hiff x).mpr hpath)

/-- The C3 store seen as a realized tree: the root has children `a`, `b`,
and `a` has the single child `x`. -/
def c3Kids : FS :=
  FS.node c3A (FS.node c3X FS.leaf FS.leaf) (FS.node c3B FS.leaf FS.leaf)

/-- C8 witness: the concrete tree-shaped store `c3Fetch` is realized, has
pairwise distinct documents, and `walk` returns its pre-order. -/
theorem C8_walk_depth_first_witness :
    realizesF c3Fetch defaultRegistry (FS.node c3Root c3Kids FS.leaf) = true
    ∧ FS.heightF (FS.node c3Root c3Kids FS.leaf) ≤ 9
    ∧ (FS.docs (FS.node c3Root c3Kids FS.leaf)).Nodup
    ∧ Catalog.walk c3Fetch defaultRegistry 9 c3Root
      = Except.ok (FS.docs (FS.node c3Root c3Kids FS.leaf)) := by
  refine ⟨by decide, by decide, by decide, ?_⟩
  exact (C8_walk_depth_first c3Fetch defaultRegistry c3Root c3Kids 9
    (by decide) (by decide)).1

/-- Every top-level root of a realized forest carries an `id` key. -/
theorem tops_have_id (fetch : Fetch) (reg : Registry) :
    ∀ fs : FS, realizesF fetch reg fs = true →
      ∀ x ∈ FS.tops fs, hasKey x "id" = true
  | FS.leaf, _, x, hx => absurd hx (List.not_mem_nil x)
  | FS.node d c s, hreal, x, hx => by
    obtain ⟨hid, _, _, hrs⟩ := (realizesF_node_iff fetch reg d c s).mp hreal
    rcases List.mem_cons.mp hx with h0 | hmem
    · rw [h0]; exact hid
    · exact tops_have_id fetch reg s hrs x hmem

/-- `child.id` on a container resource reads the document's `id` value. -/
theorem resourceId_of_containerDoc {r : Resource} {d0 : Doc} {v : JValue}
    (hcd : containerDoc r = some d0) (hid : List.lookup "id" d0 = some v) :
    resourceId r = Except.ok v := by
  cases r with
  | catalog d => simp [containerDoc] at hcd; subst hcd; simp [resourceId, hid]
  | collection d => simp [containerDoc] at hcd; subst hcd; simp [resourceId, hid]
  | item d => simp [containerDoc] at hcd
  | raw v2 => simp [containerDoc] at hcd

/-- The child scan of `filter_by_id` finds the first resolved child whose
document's `id` value equals the target, in document order. -/
theorem findMatch_spec (tid : String) :
    ∀ (rs : List Resource) (ds : List Doc), allContainers rs = some ds →
      (∀ x ∈ ds, hasKey x "id" = true) →
      RelOpt (Catalog.findMatch tid rs) (ds.find? (idMatches tid))
  | [], ds, h, _ => by
    simp [allContainers] at h
    subst h
    simp [Catalog.findMatch, RelOpt]
  | r :: rs, ds, h, hids => by
    cases hcd : containerDoc r with
    | none => simp [allContainers, hcd] at h
    | some d0 =>
      cases hac : allContainers rs with
      | none => simp [allContainers, hcd, hac] at h
      | some ds' =>
        simp [allContainers, hcd, hac] at h
        subst h
        have hd0id := hids d0 (List.mem_cons_self d0 ds')
        obtain ⟨v, hv⟩ := Option.isSome_iff_exists.mp hd0id
        have hresid := resourceId_of_containerDoc hcd hv
        by_cases hvx : v = JValue.str tid
        · subst hvx
          have hfind : (d0 :: ds').find? (idMatches tid) = some d0 := by
            simp [List.find?_cons, idMatches, hv]
          rw [hfind]
          exact ⟨r, by simp [Catalog.findMatch, hresid], hcd⟩
        · have hrest := findMatch_spec tid rs ds' hac
            (fun x hx => hids x (List.mem_cons_of_mem _ hx))
          have hfind : (d0 :: ds').find? (idMatches tid) = ds'.find? (idMatches tid) := by
            simp [List.find?_cons, idMatches, hv, hvx]
          rw [hfind]
          have hstep : Catalog.findMatch tid (r :: rs) = Catalog.findMatch tid rs := by
            simp [Catalog.findMatch, hresid, hvx]
          rw [hstep]
          exact hrest

/-- Searching a one-element list is searching its element. -/
theorem firstSomeE_singleton (f : Doc → Except PyError (Option Resource)) (x : Doc) :
    Catalog.firstSomeE f [x] = f x := by
  cases hf : f x with
  | error e => simp [Catalog.firstSomeE, hf]
  | ok o => cases o with
    | none => simp [Catalog.firstSomeE, hf]
    | some c => simp [Catalog.firstSomeE, hf]

/-- The interleaved walk-and-scan search of `filter_by_id`, run from each
top-level root of a realized forest in turn, returns the first document
in the forest's scan order whose `id` value equals the target. -/
theorem filterF_realized (fetch : Fetch) (reg : Registry) (tid : String) :
    ∀ (fs : FS) (fuel : Nat), realizesF fetch reg fs = true →
      FS.heightF fs ≤ fuel →
      RelOpt
        (Catalog.firstSomeE
          (fun d2 => Catalog.filter_by_id fetch reg fuel d2 tid) (FS.tops fs))
        ((FS.scanF fs).find? (idMatches tid))
  | FS.leaf, fuel, _, _ => by
    simp [FS.tops, FS.scanF, Catalog.firstSomeE, RelOpt]
  | FS.node d c s, fuel, hreal, hfuel => by
    obtain ⟨hid, ⟨rs, hch, hac⟩, hrc, hrs⟩ := (realizesF_node_iff fetch reg d c s).mp hreal
    obtain ⟨hhc, hhs⟩ := heightF_node_le hfuel
    cases fuel with
    | zero => omega
    | succ f =>
      have hfmatch := findMatch_spec tid rs (FS.tops c) hac (tops_have_id fetch reg c hrc)
      cases hfind : (FS.tops c).find? (idMatches tid) with
      | some d0 =>
        rw [hfind] at hfmatch
        obtain ⟨r0, hfm, hcd0⟩ := hfmatch
        have hfd : Catalog.filter_by_id fetch reg (f + 1) d tid = Except.ok (some r0) := by
          simp only [Catalog.filter_by_id, hch, hfm]
        have hspec : (FS.scanF (FS.node d c s)).find? (idMatches tid) = some d0 := by
          simp [FS.scanF, List.find?_append, hfind]
        rw [hspec]
        refine ⟨r0, ?_, hcd0⟩
        simp [FS.tops, Catalog.firstSomeE, hfd]
      | none =>
        rw [hfind] at hfmatch
        simp only [RelOpt] at hfmatch
        have ihc := filterF_realized fetch reg tid c f hrc (by omega)
        have hwalkable := mapE_asWalkable_of_allContainers hac
        have hfd : Catalog.filter_by_id fetch reg (f + 1) d tid
            = Catalog.firstSomeE
                (fun d2 => Catalog.filter_by_id fetch reg f d2 tid) (FS.tops c) := by
          simp only [Catalog.filter_by_id, hch, hfmatch, hwalkable]
        cases hfindc : (FS.scanF c).find? (idMatches tid) with
        | some d1 =>
          rw [hfindc] at ihc
          obtain ⟨r1, hfc, hcd1⟩ := ihc
          have hspec : (FS.scanF (FS.node d c s)).find? (idMatches tid) = some d1 := by
            simp [FS.scanF, List.find?_append, hfind, hfindc]
          rw [hspec]
          refine ⟨r1, ?_, hcd1⟩
          simp [FS.tops, Catalog.firstSomeE, hfd, hfc]
        | none =>
          rw [hfindc] at ihc
          simp only [RelOpt] at ihc
          have hfdnone : Catalog.filter_by_id fetch reg (f + 1) d tid = Except.ok none := by
            rw [hfd]; exact ihc
          have ihs := filterF_realized fetch reg tid s (f + 1) hrs hhs
          have hspec : (FS.scanF (FS.node d c s)).find? (idMatches tid)
              = (FS.scanF s).find? (idMatches tid) := by
            simp [FS.scanF, List.find?_append, hfind, hfindc]
          rw [hspec]
          have hstep : Catalog.firstSomeE
                (fun d2 => Catalog.filter_by_id fetch reg (f + 1) d2 tid)
                (FS.tops (FS.node d c s))
              = Catalog.firstSomeE
                  (fun d2 => Catalog.filter_by_id fetch reg (f + 1) d2 tid) (FS.tops s) := by
            simp [FS.tops, Catalog.firstSomeE, hfdnone]
          rw [hstep]
          exact ihs

/-- The scan order together with the top-level roots is a permutation of
all the forest's documents. -/
theorem scanF_tops_perm : ∀ fs : FS, List.Perm (FS.scanF fs ++ FS.tops fs) (FS.docs fs)
  | FS.leaf => by simp [FS.scanF, FS.tops, FS.docs]
  | FS.node d c s => by
    have ihc := scanF_tops_perm c
    have ihs := scanF_tops_perm s
    have p1 : List.Perm (FS.tops c ++ FS.scanF c) (FS.docs c) :=
      (List.perm_append_comm).trans ihc
    have heq : (FS.tops c ++ (FS.scanF c ++ FS.scanF s)) ++ FS.tops s
        = (FS.tops c ++ FS.scanF c) ++ (FS.scanF s ++ FS.tops s) := by
      simp [List.append_assoc]
    have p2 : List.Perm ((FS.tops c ++ (FS.scanF c ++ FS.scanF s)) ++ FS.tops s)
        (FS.docs c ++ FS.docs s) := by
      rw [heq]
      exact List.Perm.append p1 ihs
    show List.Perm (FS.scanF (FS.node d c s) ++ FS.tops (FS.node d c s))
      (FS.docs (FS.node d c s))
    simp only [FS.scanF, FS.tops, FS.docs]
    exact (List.perm_middle).trans (List.Perm.cons d p2)

/-- For a single tree, the scan order ranges over exactly the proper
descendants (the root is never scanned). -/
theorem mem_scanF_tree (d : Doc) (c : FS) (x : Doc) :
    x ∈ FS.scanF (FS.node d c FS.leaf) ↔ x ∈ FS.docs c := by
  have hperm := scanF_tops_perm c
  constructor
  · intro hx
    simp only [FS.scanF, List.mem_append] at hx
    rcases hx with h1 | h2 | h3
    · exact hperm.mem_iff.mp (List.mem_append_right _ h1)
    · exact hperm.mem_iff.mp (List.mem_append_left _ h2)
    · simp [FS.scanF] at h3
  · intro hx
    have hx2 := hperm.mem_iff.mpr hx
    simp only [FS.scanF, List.mem_append]
    rcases List.mem_append.mp hx2 with h1 | h2
    · right; left; exact h1
    · left; exact h2

/-- C3 (amended): on a realized tree, `filter_by_id` returns the first
matching document in the implementation's scan order (`FS.scanF`: each
walked entity's direct children, in walk order), wrapped as the container
resource the classifier produced; consequently it returns the absent
value when no descendant matches, and the unique matching descendant when
exactly one matches. -/
theorem C3_filter_by_id_scan_order (fetch : Fetch) (reg : Registry) (d : Doc) (c : FS)
    (fuel : Nat) (tid : String)
    (hreal : realizesF fetch reg (FS.node d c FS.leaf) = true)
    (hfuel : FS.heightF (FS.node d c FS.leaf) ≤ fuel) :
    RelOpt (Catalog.filter_by_id fetch reg fuel d tid)
      ((FS.scanF (FS.node d c FS.leaf)).find? (idMatches tid))
    ∧ ((∀ y ∈ FS.docs c, idMatches tid y = false) →
        Catalog.filter_by_id fetch reg fuel d tid = Except.ok none)
    ∧ (∀ x ∈ FS.docs c, idMatches tid x = true →
        (∀ y ∈ FS.docs c, idMatches tid y = true → y = x) →
        ∃ r, Catalog.filter_by_id fetch reg fuel d tid = Except.ok (some r)
          ∧ containerDoc r = some x) := by
  have hF := filterF_realized fetch reg tid (FS.node d c FS.leaf) fuel hreal hfuel
  simp only [FS.tops] at hF
  rw [firstSomeE_singleton] at hF
  refine ⟨hF, ?_, ?_⟩
  · intro hnone
    have hfind : (FS.scanF (FS.node d c FS.leaf)).find? (idMatches tid) = none := by
      rw [List.find?_eq_none]
      intro x hx
      have hxc := (mem_scanF_tree d c x).mp hx
      simp [hnone x hxc]
    rw [hfind] at hF
    simpa only [RelOpt] using hF
  · intro x hx hmatch huniq
    have hxscan : x ∈ FS.scanF (FS.node d c FS.leaf) := (mem_scanF_tree d c x).mpr hx
    have hsome : ((FS.scanF (FS.node d c FS.leaf)).find? (idMatches tid)).isSome := by
      rw [List.find?_isSome]
      exact ⟨x, hxscan, hmatch⟩
    obtain ⟨z, hz⟩ := Option.isSome_iff_exists.mp hsome
    have hz1 : idMatches tid z = true := List.find?_some hz
    have hz2 : z ∈ FS.scanF (FS.node d c FS.leaf) := List.mem_of_find?_eq_some hz
    have hzx : z = x := huniq z ((mem_scanF_tree d c z).mp hz2) hz1
    rw [hz, hzx] at hF
    simpa only [RelOpt] using hF

/-- C3 witness: on the concrete tree-shaped store `c3Fetch`, the search
for id `"dup"` realizes the first scan-order match. -/
theorem C3_filter_by_id_scan_order_witness :
    realizesF c3Fetch defaultRegistry (FS.node c3Root c3Kids FS.leaf) = true
    ∧ FS.heightF (FS.node c3Root c3Kids FS.leaf) ≤ 9
    ∧ RelOpt (Catalog.filter_by_id c3Fetch defaultRegistry 9 c3Root "dup")
        ((FS.scanF (FS.node c3Root c3Kids FS.leaf)).find? (idMatches "dup")) := by
  refine ⟨by decide, by decide, ?_⟩
  exact (C3_filter_by_id_scan_order c3Fetch defaultRegistry c3Root c3Kids 9 "dup"
    (by decide) (by decide)).1
